import Mathlib

/-!
# NDVI route (`src/app/api/ndvi/route.js`)

A shallow embedding of the two functions of the route module:

* `initEarthEngine`, the session gate built from the module-level variables
  `initialized` and `eeInitializePromise`;
* `GET`, the request handler.

The Earth Engine client, the file system and the URL parser are collaborators
of the module.  Their answers are inputs of the model: the outcome of reading
the credential file is an argument of `initEarthEngine`, the callbacks that
the client fires later are `Event`s, and the answers of the query calls are a
`Remote` record.
-/

namespace Agrimitra

/-! ## Session gate -/

/-- The settlement state of a promise created by `new Promise`. -/
inductive Settled where
  | pending
  | fulfilled
  | rejected (cause : String)
  deriving DecidableEq, Repr

/-- The module state.  `initialized` and `eeInitializePromise` are the two
module-level variables (lines 10-11), a promise being named by its index in
`promises`, the list of all promises created so far.  `authInFlight` holds
the handshakes whose `authenticateViaPrivateKey` call has not called back yet,
`initInFlight` those whose `ee.initialize` call has not called back yet.
`credentialReads` and `authCalls` count the calls of `fs.readFileSync` and of
`ee.data.authenticateViaPrivateKey`; nothing reads them. -/
structure Session where
  initialized : Bool
  eeInitializePromise : Option Nat
  promises : List Settled
  authInFlight : List Nat
  initInFlight : List Nat
  credentialReads : Nat
  authCalls : Nat
  deriving DecidableEq, Repr

/-- The state when the module is loaded (lines 10-11). -/
def Session.start : Session :=
  { initialized := false, eeInitializePromise := none, promises := [],
    authInFlight := [], initInFlight := [], credentialReads := 0, authCalls := 0 }

/-- Settle promise `p` with `v`; `resolve` and `reject` have no effect on a
promise that is already settled. -/
def settle (p : Nat) (v : Settled) (ps : List Settled) : List Settled :=
  match ps.get? p with
  | some Settled.pending => ps.set p v
  | _ => ps

/-- The body of `initEarthEngine` (lines 13-56).  `cred` is what
`JSON.parse(fs.readFileSync(...))` does in this call when it is reached: it
yields the key or throws.  The result is the new state and the value the body
returns: `none` for the bare `return` of line 16, `some p` for the promise
returned at line 20 or 55.

The executor of `new Promise` runs during the construction, before the
assignment to `eeInitializePromise` of line 25 takes place: the state written
by the executor is `afterExecutor`, and the assignment is applied to it. -/
def initEarthEngine (cred : Except String String) (s : Session) : Session × Option Nat :=
  if s.initialized then (s, none)
  else
    match s.eeInitializePromise with
    | some p => (s, some p)
    | none =>
      let p := s.promises.length
      let afterExecutor : Session :=
        match cred with
        | Except.ok _ =>
          -- line 31: the two callbacks are handed to the client
          { s with promises := s.promises ++ [Settled.pending],
                   authInFlight := p :: s.authInFlight,
                   credentialReads := s.credentialReads + 1,
                   authCalls := s.authCalls + 1 }
        | Except.error err =>
          -- lines 47-52: the catch block
          { s with promises := s.promises ++ [Settled.rejected err],
                   initialized := false,
                   eeInitializePromise := none,
                   credentialReads := s.credentialReads + 1 }
      ({ afterExecutor with eeInitializePromise := some p }, some p)

deriving instance DecidableEq for Except

/-- What happens to the module between two turns of the event loop. -/
inductive Event where
  /-- Some request calls `initEarthEngine`. -/
  | call (cred : Except String String)
  /-- The client calls the success callback of `authenticateViaPrivateKey`
  (lines 33-39) for handshake `p`. -/
  | authOk (p : Nat)
  /-- The client calls the error callback of `authenticateViaPrivateKey`
  (lines 40-45) for handshake `p`. -/
  | authErr (p : Nat) (err : String)
  /-- The client calls the success callback of `ee.initialize` (lines 34-38)
  for handshake `p`. -/
  | initOk (p : Nat)
  /-- The `ee.initialize` call of handshake `p` fails.  Line 34 passes no
  error callback, so no code of the module runs. -/
  | initFail (p : Nat)
  deriving DecidableEq, Repr

/-- One event.  A callback fires only for a handshake that registered it and
at most once. -/
def step (s : Session) : Event → Session
  | Event.call cred => (initEarthEngine cred s).1
  | Event.authOk p =>
    if p ∈ s.authInFlight then
      { s with authInFlight := s.authInFlight.erase p,
               initInFlight := p :: s.initInFlight }
    else s
  | Event.authErr p err =>
    if p ∈ s.authInFlight then
      { s with authInFlight := s.authInFlight.erase p,
               initialized := false,
               eeInitializePromise := none,
               promises := settle p (Settled.rejected err) s.promises }
    else s
  | Event.initOk p =>
    if p ∈ s.initInFlight then
      { s with initInFlight := s.initInFlight.erase p,
               initialized := true,
               promises := settle p Settled.fulfilled s.promises }
    else s
  | Event.initFail p =>
    if p ∈ s.initInFlight then
      { s with initInFlight := s.initInFlight.erase p }
    else s

/-- A sequence of events, oldest first. -/
def run (s : Session) (evs : List Event) : Session :=
  evs.foldl step s

/-- An event of a run in which no handshake fails. -/
def Event.noFailure : Event → Bool
  | Event.call (Except.ok _) => true
  | Event.authOk _ => true
  | Event.initOk _ => true
  | _ => false

/-- The outcome of an `await`. -/
inductive Awaited where
  | resolved
  | rejected (cause : String)
  deriving DecidableEq, Repr

/-- What `await initEarthEngine()` (line 62) yields when the handler is
resumed in state `s`, for the value `ret` that the body returned: `none` while
the promise is pending, in which case the handler stays suspended. -/
def awaitInit (s : Session) (ret : Option Nat) : Option Awaited :=
  match ret with
  | none => some Awaited.resolved
  | some p =>
    match s.promises.get? p with
    | some Settled.fulfilled => some Awaited.resolved
    | some (Settled.rejected cause) => some (Awaited.rejected cause)
    | _ => none

/-! ## Values of the request handler -/

/-- A JavaScript number as far as the handler inspects one: only its
truthiness is tested (line 103).  A finite number is given by its exact value;
the two zeros are not told apart (both are falsy and both print as `0`). -/
inductive JSNumber where
  | nan
  | inf (negative : Bool)
  | finite (q : ℚ)
  deriving DecidableEq, Repr

/-- The values that can stand in a field of the reduction result and of the
response object. -/
inductive JSValue where
  | undefined
  | null
  | number (x : JSNumber)
  | string (s : String)
  deriving DecidableEq, Repr

/-- The conversion `ToBoolean`. -/
def JSValue.truthy : JSValue → Bool
  | JSValue.undefined => false
  | JSValue.null => false
  | JSValue.number JSNumber.nan => false
  | JSValue.number (JSNumber.inf _) => true
  | JSValue.number (JSNumber.finite q) => decide (q ≠ 0)
  | JSValue.string s => decide (s ≠ "")

/-- The operator `a || b`. -/
def JSValue.orElse (a b : JSValue) : JSValue :=
  if a.truthy then a else b

/-- The property read `obj.name` on an object given by its own fields. -/
def getField (obj : List (String × JSValue)) (name : String) : JSValue :=
  (obj.lookup name).getD JSValue.undefined

/-- The result of `parseFloat`: `NaN`, or the number denoted by the longest
prefix of the trimmed argument that is a decimal literal, kept as that
prefix. -/
inductive ParsedFloat where
  | nan
  | literal (text : String)
  deriving DecidableEq, Repr

/-- The code points that `parseFloat` skips at the start of its argument
(`WhiteSpace` and `LineTerminator`). -/
def isWhiteSpace (c : Char) : Bool :=
  c.toNat ∈ [0x09, 0x0A, 0x0B, 0x0C, 0x0D, 0x20, 0xA0, 0x1680, 0x2028, 0x2029,
    0x202F, 0x205F, 0x3000, 0xFEFF] || (0x2000 ≤ c.toNat && c.toNat ≤ 0x200A)

/-- The longest run of decimal digits at the start of a text, and the rest. -/
def takeDigits : List Char → List Char × List Char
  | [] => ([], [])
  | c :: cs =>
    if c.isDigit then ((takeDigits cs).1.cons c, (takeDigits cs).2) else ([], c :: cs)

/-- The `ExponentPart` at the start of a text, empty when there is none. -/
def exponentPart : List Char → List Char
  | [] => []
  | e :: cs =>
    if e = 'e' || e = 'E' then
      match cs with
      | [] => []
      | c :: ds =>
        if c = '+' || c = '-' then
          (if (takeDigits ds).1.isEmpty then [] else e :: c :: (takeDigits ds).1)
        else
          (if (takeDigits cs).1.isEmpty then [] else e :: (takeDigits cs).1)
    else []

/-- The longest prefix that is a `StrUnsignedDecimalLiteral`, if there is
one. -/
def unsignedLiteral (cs : List Char) : Option (List Char) :=
  if "Infinity".toList.isPrefixOf cs then some "Infinity".toList
  else
    match (takeDigits cs).1, (takeDigits cs).2 with
    | [], '.' :: rest =>
      if (takeDigits rest).1.isEmpty then none
      else some ('.' :: (takeDigits rest).1 ++ exponentPart (takeDigits rest).2)
    | [], _ => none
    | ds, '.' :: rest =>
      some (ds ++ '.' :: (takeDigits rest).1 ++ exponentPart (takeDigits rest).2)
    | ds, rest => some (ds ++ exponentPart rest)

/-- The function `parseFloat` on a string. -/
def parseFloat (s : String) : ParsedFloat :=
  match s.toList.dropWhile isWhiteSpace with
  | [] => ParsedFloat.nan
  | c :: cs =>
    if c = '+' || c = '-' then
      match unsignedLiteral cs with
      | some l => ParsedFloat.literal (String.mk (c :: l))
      | none => ParsedFloat.nan
    else
      match unsignedLiteral (c :: cs) with
      | some l => ParsedFloat.literal (String.mk l)
      | none => ParsedFloat.nan

/-- The hexadecimal digit of a number below sixteen, in lower case. -/
def hexDigit (n : Nat) : Char :=
  if n < 10 then Char.ofNat (48 + n) else Char.ofNat (87 + n)

/-- How `JSON.stringify` writes one character of a string. -/
def quoteChar (c : Char) : List Char :=
  if c.toNat = 34 then [Char.ofNat 92, Char.ofNat 34]
  else if c.toNat = 92 then [Char.ofNat 92, Char.ofNat 92]
  else if c.toNat = 8 then [Char.ofNat 92, 'b']
  else if c.toNat = 12 then [Char.ofNat 92, 'f']
  else if c.toNat = 10 then [Char.ofNat 92, 'n']
  else if c.toNat = 13 then [Char.ofNat 92, 'r']
  else if c.toNat = 9 then [Char.ofNat 92, 't']
  else if c.toNat < 32 then
    [Char.ofNat 92, 'u', '0', '0', hexDigit (c.toNat / 16), hexDigit (c.toNat % 16)]
  else [c]

/-- How `JSON.stringify` writes a string. -/
def quote (s : String) : String :=
  String.mk (Char.ofNat 34 :: (s.toList.flatMap quoteChar ++ [Char.ofNat 34]))

/-- How `JSON.stringify` writes a field value; `none` for `undefined`, whose
field is left out.  `numToStr` writes a finite number (`Number::toString`),
which the model does not fix. -/
def stringifyValue (numToStr : ℚ → String) : JSValue → Option String
  | JSValue.undefined => none
  | JSValue.null => some "null"
  | JSValue.number (JSNumber.finite q) => some (numToStr q)
  | JSValue.number _ => some "null"
  | JSValue.string s => some (quote s)

/-- The call `JSON.stringify(obj)` for an object literal whose fields hold
primitive values. -/
def JSON.stringify (numToStr : ℚ → String) (obj : List (String × JSValue)) : String :=
  "\x7b" ++ ",".intercalate
    (obj.filterMap fun kv => (stringifyValue numToStr kv.2).map fun v => quote kv.1 ++ ":" ++ v)
    ++ "\x7d"

/-! ## Request handler -/

/-- A `Response`, as built by `new Response(body, { status })`. -/
structure Response where
  body : String
  status : Nat
  deriving DecidableEq, Repr

/-- The request as far as the handler reads it: `url` is what
`new URL(req.url)` finds, `none` when it throws, otherwise the name-value
pairs of the query string in their order. -/
structure Request where
  url : Option (List (String × String))
  deriving DecidableEq, Repr

/-- The method `searchParams.get(name)`: the first value of that name, or
`null`. -/
def searchParamsGet (searchParams : List (String × String)) (name : String) : Option String :=
  searchParams.lookup name

/-- The calls into the Earth Engine client made by the handler (lines 75-99),
with their arguments. -/
inductive RemoteOp where
  | point (lon lat : ParsedFloat)
  | buffer (distance : Nat)
  | bounds
  | imageCollection (id : String)
  | filterBounds
  | filterDate (start stop : String)
  | filterLt (property : String) (value : Nat)
  | filter
  | median
  | normalizedDifference (bands : List String)
  | rename (name : String)
  | reducerMean
  | reduceRegion (scale maxPixels : Nat)
  | getInfo
  | getMap (min max : Nat) (palette : List String)
  deriving DecidableEq, Repr

/-- The object returned by `getMap`. -/
structure MapId where
  mapid : String
  token : String
  deriving DecidableEq, Repr

/-- The answers of the Earth Engine client to one request: which calls throw
and with what cause, what `getInfo` returns when it returns (`none` for
`null`, else the dictionary), and what `getMap` returns when it returns
(`none` for a falsy value). -/
structure Remote where
  throws : RemoteOp → Option String
  getInfo : Option (List (String × JSValue))
  getMap : Option MapId

/-- Make the calls in order up to the first one that throws: the calls made
and the cause thrown, if any. -/
def issueAll (throws : RemoteOp → Option String) : List RemoteOp → List RemoteOp × Option String
  | [] => ([], none)
  | op :: rest =>
    match throws op with
    | some cause => ([op], some cause)
    | none => (op :: (issueAll throws rest).1, (issueAll throws rest).2)

/-- The calls of lines 75-96 in the order in which they are evaluated. -/
def queryOps (lon lat : String) : List RemoteOp :=
  [ RemoteOp.point (parseFloat lon) (parseFloat lat),
    RemoteOp.buffer 500,
    RemoteOp.bounds,
    RemoteOp.imageCollection "COPERNICUS/S2_SR",
    RemoteOp.filterBounds,
    RemoteOp.filterDate "2024-01-01" "2024-12-31",
    RemoteOp.filterLt "CLOUDY_PIXEL_PERCENTAGE" 20,
    RemoteOp.filter,
    RemoteOp.median,
    RemoteOp.normalizedDifference ["B8", "B4"],
    RemoteOp.rename "NDVI",
    RemoteOp.reducerMean,
    RemoteOp.reduceRegion 10 1000000000,
    RemoteOp.getInfo ]

/-- The call `ndvi.getMap(visParams)` of lines 98-99. -/
def getMapOp : RemoteOp :=
  RemoteOp.getMap 0 1 ["red", "yellow", "green"]

/-- The template literal of line 104. -/
def tileUrl (mapId : MapId) : String :=
  "https://earthengine.googleapis.com/map/" ++ mapId.mapid ++ "/\x7bz\x7d/\x7bx\x7d/\x7by\x7d?token="
    ++ mapId.token

/-- The conditional expression of line 104. -/
def mapUrl (mapId : Option MapId) : JSValue :=
  match mapId with
  | some m => JSValue.string (tileUrl m)
  | none => JSValue.null

/-- The object literal of lines 102-105. -/
def ndviObject (meanDict : List (String × JSValue)) (mapId : Option MapId) :
    List (String × JSValue) :=
  [ ("ndviValue", (getField meanDict "NDVI").orElse (JSValue.number (JSNumber.finite 0))),
    ("mapUrl", mapUrl mapId) ]

/-- The `try` block of `GET` (lines 60-107) from the point where
`await initEarthEngine()` has settled with `awaited`: the response it returns
or the cause it throws, and the client calls it has made. -/
def tryBlock (numToStr : ℚ → String) (awaited : Awaited) (req : Request) (ee : Remote) :
    Except String Response × List RemoteOp :=
  match awaited with
  | Awaited.rejected cause => (Except.error cause, [])
  | Awaited.resolved =>
    match req.url with
    | none => (Except.error "TypeError: Invalid URL", [])
    | some searchParams =>
      match searchParamsGet searchParams "lat", searchParamsGet searchParams "lon" with
      | some lat, some lon =>
        if lat = "" || lon = "" then
          (Except.ok ⟨JSON.stringify numToStr [("error", JSValue.string "lat and lon required")],
            400⟩, [])
        else
          match issueAll ee.throws (queryOps lon lat) with
          | (made, some cause) => (Except.error cause, made)
          | (made, none) =>
            match ee.throws getMapOp with
            | some cause => (Except.error cause, made ++ [getMapOp])
            | none =>
              match ee.getInfo with
              | none =>
                (Except.error "TypeError: Cannot read properties of null", made ++ [getMapOp])
              | some meanDict =>
                (Except.ok ⟨JSON.stringify numToStr (ndviObject meanDict ee.getMap), 200⟩,
                  made ++ [getMapOp])
      | _, _ =>
        (Except.ok ⟨JSON.stringify numToStr [("error", JSValue.string "lat and lon required")],
          400⟩, [])

/-- The handler `GET` (lines 58-113) from the point where
`await initEarthEngine()` has settled: the response, and the client calls
made.  The `catch` of lines 108-112 turns every cause into the same
response. -/
def GET (numToStr : ℚ → String) (awaited : Awaited) (req : Request) (ee : Remote) :
    Response × List RemoteOp :=
  match tryBlock numToStr awaited req ee with
  | (Except.ok response, made) => (response, made)
  | (Except.error _, made) =>
    (⟨JSON.stringify numToStr [("error", JSValue.string "Failed to fetch NDVI")], 500⟩, made)

/-! ## Invariants of the session gate -/

/-- What every state reached from `Session.start` satisfies: at most one
handshake is in flight, none when no promise is stored, no authentication is
outstanding once `initialized` is set, and a promise is fulfilled only with
`initialized` set. -/
def Inv (s : Session) : Prop :=
  (s.authInFlight ++ s.initInFlight).length ≤ 1 ∧
  (s.eeInitializePromise = none → s.authInFlight = [] ∧ s.initInFlight = []) ∧
  (s.initialized = true → s.authInFlight = []) ∧
  (∀ p, s.promises.get? p = some Settled.fulfilled → s.initialized = true)

/-- What holds after the first call of a run without failure that started in
the uninitialized state `s0`: the promise of that call is the stored one, one
credential read and one authentication call have been made, and the promise
is pending until `initialized` is set. -/
def SingleFlight (s0 s : Session) : Prop :=
  s.eeInitializePromise = some s0.promises.length ∧
  s.credentialReads = s0.credentialReads + 1 ∧
  s.authCalls = s0.authCalls + 1 ∧
  (s.initialized = false → s.promises.get? s0.promises.length = some Settled.pending)

/-! ## Lemmas -/

theorem initEarthEngine_ready (cred : Except String String) (s : Session)
    (h : s.initialized = true) : initEarthEngine cred s = (s, none) := by
  simp [initEarthEngine, h]

theorem initEarthEngine_attach (cred : Except String String) (s : Session) (p : Nat)
    (h : s.initialized = false) (hp : s.eeInitializePromise = some p) :
    initEarthEngine cred s = (s, some p) := by
  simp [initEarthEngine, h, hp]

theorem initEarthEngine_start_ok (key : String) (s : Session)
    (h : s.initialized = false) (hp : s.eeInitializePromise = none) :
    initEarthEngine (Except.ok key) s =
      ({ s with promises := s.promises ++ [Settled.pending],
                authInFlight := s.promises.length :: s.authInFlight,
                credentialReads := s.credentialReads + 1,
                authCalls := s.authCalls + 1,
                eeInitializePromise := some s.promises.length }, some s.promises.length) := by
  simp [initEarthEngine, h, hp]

theorem initEarthEngine_start_error (err : String) (s : Session)
    (h : s.initialized = false) (hp : s.eeInitializePromise = none) :
    initEarthEngine (Except.error err) s =
      ({ s with promises := s.promises ++ [Settled.rejected err],
                credentialReads := s.credentialReads + 1,
                eeInitializePromise := some s.promises.length }, some s.promises.length) := by
  cases s
  simp_all [initEarthEngine]

theorem run_append (s : Session) (xs ys : List Event) :
    run s (xs ++ ys) = run (run s xs) ys := by
  simp [run, List.foldl_append]

theorem run_cons (s : Session) (e : Event) (es : List Event) :
    run s (e :: es) = run (step s e) es := rfl

theorem settle_length (p : Nat) (v : Settled) (ps : List Settled) :
    (settle p v ps).length = ps.length := by
  unfold settle
  split <;> simp

theorem settle_get_pending (p : Nat) (v : Settled) (ps : List Settled)
    (h : ps.get? p = some Settled.pending) : (settle p v ps).get? p = some v := by
  have hlt : p < ps.length := by
    by_contra hge
    rw [List.get?_eq_none.mpr (Nat.le_of_not_lt hge)] at h
    cases h
  simp only [settle, h]
  simp [List.getElem?_set, hlt]

theorem settle_get_other (p q : Nat) (v : Settled) (ps : List Settled) (hne : p ≠ q) :
    (settle p v ps).get? q = ps.get? q := by
  unfold settle
  split
  · simp [List.getElem?_set, hne]
  · rfl

theorem settle_get_fulfilled (p q : Nat) (cause : String) (ps : List Settled)
    (h : (settle p (Settled.rejected cause) ps).get? q = some Settled.fulfilled) :
    ps.get? q = some Settled.fulfilled := by
  by_cases hpq : p = q
  · subst hpq
    unfold settle at h
    split at h
    · rename_i hp
      have hlt : p < ps.length := by
        by_contra hge
        rw [List.get?_eq_none.mpr (Nat.le_of_not_lt hge)] at hp
        cases hp
      simp [List.getElem?_set, hlt] at h
    · exact h
  · rw [settle_get_other p q _ ps hpq] at h
    exact h

theorem erase_of_short (l : List Nat) (p : Nat) (hl : l.length ≤ 1) (hp : p ∈ l) :
    l.erase p = [] := by
  match l, hl, hp with
  | [a], _, hp =>
    have : p = a := by simpa using hp
    subst this
    simp

theorem eq_nil_of_mem_other (l m : List Nat) (p : Nat) (h : (l ++ m).length ≤ 1) (hp : p ∈ m) :
    l = [] := by
  cases l with
  | nil => rfl
  | cons a l =>
    cases m with
    | nil => cases hp
    | cons b m => simp at h

theorem get_append_fulfilled (ps : List Settled) (v : Settled) (p : Nat)
    (hv : v ≠ Settled.fulfilled) (h : (ps ++ [v]).get? p = some Settled.fulfilled) :
    ps.get? p = some Settled.fulfilled := by
  by_cases hlt : p < ps.length
  · simpa [List.getElem?_append_left, hlt] using h
  · have hle : ps.length ≤ p := Nat.le_of_not_lt hlt
    rw [List.get?_eq_getElem?, List.getElem?_append_right hle] at h
    cases hk : p - ps.length with
    | zero =>
      rw [hk] at h
      simp at h
      exact absurd h hv
    | succ k =>
      rw [hk] at h
      simp at h

theorem step_inv (s : Session) (e : Event) (h : Inv s) : Inv (step s e) := by
  obtain ⟨h1, h2, h3, h4⟩ := h
  cases e with
  | call cred =>
    by_cases hi : s.initialized = true
    · rw [step, initEarthEngine_ready cred s hi]
      exact ⟨h1, h2, h3, h4⟩
    · have hif : s.initialized = false := by simpa using hi
      cases hep : s.eeInitializePromise with
      | some p =>
        rw [step, initEarthEngine_attach cred s p hif hep]
        exact ⟨h1, h2, h3, h4⟩
      | none =>
        obtain ⟨ha, hb⟩ := h2 hep
        cases cred with
        | ok key =>
          rw [step, initEarthEngine_start_ok key s hif hep]
          refine ⟨by simp [ha, hb], by simp, by simp [hif], ?_⟩
          intro p hp
          exact h4 p (get_append_fulfilled s.promises _ p (by simp) hp)
        | error err =>
          rw [step, initEarthEngine_start_error err s hif hep]
          refine ⟨by simp [ha, hb], by simp, by simp [ha], ?_⟩
          intro p hp
          exact h4 p (get_append_fulfilled s.promises _ p (by simp) hp)
  | authOk p =>
    simp only [step]
    split
    · rename_i hp
      refine ⟨?_, ?_, ?_, h4⟩
      · have := List.length_erase_of_mem hp
        have hpos : 0 < s.authInFlight.length := List.length_pos_of_mem hp
        simp only [List.length_append, List.length_cons] at h1 ⊢
        omega
      · intro hn
        rw [(h2 hn).1] at hp
        cases hp
      · intro hi
        rw [h3 hi] at hp
        cases hp
    · exact ⟨h1, h2, h3, h4⟩
  | authErr p err =>
    simp only [step]
    split
    · rename_i hp
      have hlen : s.authInFlight.length ≤ 1 := by
        simp only [List.length_append] at h1
        omega
      have he : s.authInFlight.erase p = [] := erase_of_short _ p hlen hp
      have hinit : s.initInFlight = [] := by
        cases hm : s.initInFlight with
        | nil => rfl
        | cons b m =>
          have hpos : 0 < s.authInFlight.length := List.length_pos_of_mem hp
          simp [hm] at h1
          omega
      refine ⟨by simp [he, hinit], by simp [he, hinit], by simp, ?_⟩
      intro q hq
      have := h4 q (settle_get_fulfilled p q err s.promises hq)
      rw [h3 this] at hp
      cases hp
    · exact ⟨h1, h2, h3, h4⟩
  | initOk p =>
    simp only [step]
    split
    · rename_i hp
      have ha : s.authInFlight = [] := eq_nil_of_mem_other _ _ p h1 hp
      refine ⟨?_, ?_, by simp [ha], by simp⟩
      · have := List.length_erase_of_mem hp
        simp only [List.length_append] at h1 ⊢
        omega
      · intro hn
        rw [(h2 hn).2] at hp
        cases hp
    · exact ⟨h1, h2, h3, h4⟩
  | initFail p =>
    simp only [step]
    split
    · rename_i hp
      refine ⟨?_, ?_, h3, h4⟩
      · have := List.length_erase_of_mem hp
        simp only [List.length_append] at h1 ⊢
        omega
      · intro hn
        rw [(h2 hn).2] at hp
        cases hp
    · exact ⟨h1, h2, h3, h4⟩

theorem start_inv : Inv Session.start := by
  refine ⟨by simp [Session.start], by simp [Session.start], by simp [Session.start], ?_⟩
  intro p hp
  simp [Session.start] at hp

theorem run_inv (evs : List Event) (s : Session) (h : Inv s) : Inv (run s evs) := by
  induction evs generalizing s with
  | nil => exact h
  | cons e es ih => exact ih (step s e) (step_inv s e h)

/-- Once `initialized` is set it stays set, in every reachable state. -/
theorem run_ready (evs : List Event) (s : Session) (h : Inv s) (hi : s.initialized = true) :
    (run s evs).initialized = true := by
  induction evs generalizing s with
  | nil => exact hi
  | cons e es ih =>
    refine ih (step s e) (step_inv s e h) ?_
    cases e with
    | call cred => simp [step, initEarthEngine_ready cred s hi, hi]
    | authOk p =>
      simp only [step]
      split <;> exact hi
    | authErr p err =>
      simp only [step]
      split
      · rename_i hp
        rw [h.2.2.1 hi] at hp
        cases hp
      · exact hi
    | initOk p =>
      simp only [step]
      split
      · rfl
      · exact hi
    | initFail p =>
      simp only [step]
      split <;> exact hi

theorem initEarthEngine_none (cred : Except String String) (s : Session)
    (h : (initEarthEngine cred s).2 = none) : s.initialized = true := by
  by_cases hi : s.initialized = true
  · exact hi
  · have hif : s.initialized = false := by simpa using hi
    cases hep : s.eeInitializePromise with
    | some p => simp [initEarthEngine_attach cred s p hif hep] at h
    | none =>
      cases cred with
      | ok key => simp [initEarthEngine_start_ok key s hif hep] at h
      | error err => simp [initEarthEngine_start_error err s hif hep] at h

theorem step_singleFlight (s0 s : Session) (e : Event) (h : SingleFlight s0 s)
    (he : e.noFailure = true) : SingleFlight s0 (step s e) := by
  obtain ⟨h1, h2, h3, h4⟩ := h
  cases e with
  | call cred =>
    by_cases hi : s.initialized = true
    · rw [step, initEarthEngine_ready cred s hi]
      exact ⟨h1, h2, h3, h4⟩
    · have hif : s.initialized = false := by simpa using hi
      rw [step, initEarthEngine_attach cred s _ hif h1]
      exact ⟨h1, h2, h3, h4⟩
  | authOk p =>
    simp only [step]
    split
    · exact ⟨h1, h2, h3, h4⟩
    · exact ⟨h1, h2, h3, h4⟩
  | authErr p err => simp [Event.noFailure] at he
  | initOk p =>
    simp only [step]
    split
    · exact ⟨h1, h2, h3, by simp⟩
    · exact ⟨h1, h2, h3, h4⟩
  | initFail p => simp [Event.noFailure] at he

theorem run_singleFlight (s0 : Session) (evs : List Event) (s : Session)
    (h : SingleFlight s0 s) (hok : ∀ e ∈ evs, e.noFailure = true) :
    SingleFlight s0 (run s evs) := by
  induction evs generalizing s with
  | nil => exact h
  | cons e es ih =>
    exact ih (step s e) (step_singleFlight s0 s e h (hok e (List.mem_cons_self e es)))
      (fun x hx => hok x (List.mem_cons_of_mem e hx))

theorem first_call_singleFlight (s0 : Session) (key : String)
    (h0 : s0.initialized = false) (hp0 : s0.eeInitializePromise = none) :
    SingleFlight s0 (step s0 (Event.call (Except.ok key))) := by
  rw [step, initEarthEngine_start_ok key s0 h0 hp0]
  refine ⟨rfl, rfl, rfl, ?_⟩
  intro _
  simp

/-- Calls that attach to a stored promise leave the state as it is. -/
theorem run_calls_attach (s : Session) (p : Nat) (creds : List (Except String String))
    (h : s.initialized = false) (hp : s.eeInitializePromise = some p) :
    run s (creds.map Event.call) = s := by
  induction creds with
  | nil => rfl
  | cons c cs ih =>
    rw [List.map_cons, run_cons, step, initEarthEngine_attach c s p h hp]
    exact ih

/-- In a state without a handshake in flight whose promise is kept although
`initialized` is not set, no event changes anything. -/
theorem run_stuck (s : Session) (p : Nat) (evs : List Event)
    (h : s.initialized = false) (hp : s.eeInitializePromise = some p)
    (ha : s.authInFlight = []) (hi : s.initInFlight = []) : run s evs = s := by
  induction evs with
  | nil => rfl
  | cons e es ih =>
    rw [run_cons]
    have : step s e = s := by
      cases e with
      | call cred => rw [step, initEarthEngine_attach cred s p h hp]
      | authOk q => simp [step, ha]
      | authErr q err => simp [step, ha]
      | initOk q => simp [step, hi]
      | initFail q => simp [step, hi]
    rw [this]
    exact ih

/-! ## Lemmas on the request handler -/

theorem issueAll_none (throws : RemoteOp → Option String) (ops : List RemoteOp)
    (h : ∀ op ∈ ops, throws op = none) : issueAll throws ops = (ops, none) := by
  induction ops with
  | nil => rfl
  | cons a ops ih =>
    have ha : throws a = none := h a (List.mem_cons_self a ops)
    have := ih (fun op hop => h op (List.mem_cons_of_mem a hop))
    simp [issueAll, ha, this]

theorem issueAll_quiet (throws : RemoteOp → Option String) (ops : List RemoteOp)
    (h : (issueAll throws ops).2 = none) : ∀ op ∈ ops, throws op = none := by
  induction ops with
  | nil => intro op hop; cases hop
  | cons a ops ih =>
    cases ha : throws a with
    | some cause => simp [issueAll, ha] at h
    | none =>
      simp only [issueAll, ha] at h
      intro op hop
      rcases List.mem_cons.mp hop with rfl | hmem
      · exact ha
      · exact ih h op hmem

theorem issueAll_reached_last (throws : RemoteOp → Option String) (ops : List RemoteOp)
    (x : RemoteOp) (hx : x ∉ ops) (hq : throws x = none)
    (hm : x ∈ (issueAll throws (ops ++ [x])).1) :
    issueAll throws (ops ++ [x]) = (ops ++ [x], none) := by
  induction ops with
  | nil => simp [issueAll, hq]
  | cons a ops ih =>
    have hne : x ≠ a := fun h => hx (h ▸ List.mem_cons_self a ops)
    have hx2 : x ∉ ops := fun h => hx (List.mem_cons_of_mem a h)
    cases ha : throws a with
    | some cause => simp [issueAll, ha, hne] at hm
    | none =>
      have hm2 : x ∈ (issueAll throws (ops ++ [x])).1 := by
        simp only [List.cons_append, issueAll, ha] at hm
        rcases List.mem_cons.mp hm with h | h
        · exact absurd h hne
        · exact h
      have hrec := ih hx2 hm2
      show issueAll throws (a :: (ops ++ [x])) = (a :: (ops ++ [x]), none)
      simp only [issueAll, ha, hrec]

theorem issueAll_head (throws : RemoteOp → Option String) (a : RemoteOp) (ops : List RemoteOp) :
    (issueAll throws (a :: ops)).1.head? = some a := by
  cases ha : throws a <;> simp [issueAll, ha]

theorem stringify_bad_request (numToStr : ℚ → String) :
    JSON.stringify numToStr [("error", JSValue.string "lat and lon required")]
      = "\x7b\"error\":\"lat and lon required\"\x7d" := by
  rfl

theorem stringify_failed (numToStr : ℚ → String) :
    JSON.stringify numToStr [("error", JSValue.string "Failed to fetch NDVI")]
      = "\x7b\"error\":\"Failed to fetch NDVI\"\x7d" := by
  rfl

theorem GET_of_ok (numToStr : ℚ → String) (a : Awaited) (req : Request) (ee : Remote)
    (r : Response) (made : List RemoteOp)
    (h : tryBlock numToStr a req ee = (Except.ok r, made)) :
    GET numToStr a req ee = (r, made) := by
  simp [GET, h]

theorem GET_of_error (numToStr : ℚ → String) (a : Awaited) (req : Request) (ee : Remote)
    (cause : String) (made : List RemoteOp)
    (h : tryBlock numToStr a req ee = (Except.error cause, made)) :
    GET numToStr a req ee
      = (⟨"\x7b\"error\":\"Failed to fetch NDVI\"\x7d", 500⟩, made) := by
  simp [GET, h, stringify_failed]

theorem GET_made (numToStr : ℚ → String) (a : Awaited) (req : Request) (ee : Remote) :
    (GET numToStr a req ee).2 = (tryBlock numToStr a req ee).2 := by
  unfold GET
  split <;> simp_all

theorem tryBlock_rejected (numToStr : ℚ → String) (cause : String) (req : Request)
    (ee : Remote) :
    tryBlock numToStr (Awaited.rejected cause) req ee = (Except.error cause, []) := rfl

theorem tryBlock_bad_url (numToStr : ℚ → String) (req : Request) (ee : Remote)
    (h : req.url = none) :
    tryBlock numToStr Awaited.resolved req ee = (Except.error "TypeError: Invalid URL", []) := by
  simp [tryBlock, h]

theorem tryBlock_missing (numToStr : ℚ → String) (req : Request) (ee : Remote)
    (qs : List (String × String)) (hu : req.url = some qs)
    (h : searchParamsGet qs "lat" = none ∨ searchParamsGet qs "lon" = none ∨
      searchParamsGet qs "lat" = some "" ∨ searchParamsGet qs "lon" = some "") :
    tryBlock numToStr Awaited.resolved req ee
      = (Except.ok ⟨"\x7b\"error\":\"lat and lon required\"\x7d", 400⟩, []) := by
  simp only [tryBlock, hu, stringify_bad_request]
  cases hlat : searchParamsGet qs "lat" with
  | none => rfl
  | some lat =>
    cases hlon : searchParamsGet qs "lon" with
    | none => rfl
    | some lon =>
      have : lat = "" ∨ lon = "" := by
        rcases h with h | h | h | h
        · rw [hlat] at h; cases h
        · rw [hlon] at h; cases h
        · rw [hlat] at h; exact Or.inl (Option.some.inj h)
        · rw [hlon] at h; exact Or.inr (Option.some.inj h)
      simp [this]

/-- The `try` block once both coordinates are there: lines 75-107. -/
theorem tryBlock_query (numToStr : ℚ → String) (req : Request) (ee : Remote)
    (qs : List (String × String)) (lat lon : String) (hu : req.url = some qs)
    (hlat : searchParamsGet qs "lat" = some lat) (hlon : searchParamsGet qs "lon" = some lon)
    (h1 : lat ≠ "") (h2 : lon ≠ "") :
    tryBlock numToStr Awaited.resolved req ee =
      match issueAll ee.throws (queryOps lon lat) with
      | (made, some cause) => (Except.error cause, made)
      | (made, none) =>
        match ee.throws getMapOp with
        | some cause => (Except.error cause, made ++ [getMapOp])
        | none =>
          match ee.getInfo with
          | none =>
            (Except.error "TypeError: Cannot read properties of null", made ++ [getMapOp])
          | some meanDict =>
            (Except.ok ⟨JSON.stringify numToStr (ndviObject meanDict ee.getMap), 200⟩,
              made ++ [getMapOp]) := by
  simp [tryBlock, hu, hlat, hlon, h1, h2]

/-- The handler calls the client only after a resolved `await`, with a parsed
URL and two non-empty coordinates. -/
theorem made_inv (numToStr : ℚ → String) (a : Awaited) (req : Request) (ee : Remote)
    (h : (GET numToStr a req ee).2 ≠ []) :
    a = Awaited.resolved ∧ ∃ qs lat lon, req.url = some qs ∧
      searchParamsGet qs "lat" = some lat ∧ searchParamsGet qs "lon" = some lon ∧
      lat ≠ "" ∧ lon ≠ "" := by
  rw [GET_made] at h
  cases a with
  | rejected cause => exact absurd rfl h
  | resolved =>
    refine ⟨rfl, ?_⟩
    cases hu : req.url with
    | none => rw [tryBlock_bad_url numToStr req ee hu] at h; exact absurd rfl h
    | some qs =>
      by_cases hm : searchParamsGet qs "lat" = none ∨ searchParamsGet qs "lon" = none ∨
          searchParamsGet qs "lat" = some "" ∨ searchParamsGet qs "lon" = some ""
      · rw [tryBlock_missing numToStr req ee qs hu hm] at h; exact absurd rfl h
      · simp only [not_or] at hm
        obtain ⟨m1, m2, m3, m4⟩ := hm
        cases hlat : searchParamsGet qs "lat" with
        | none => exact absurd hlat m1
        | some lat =>
          cases hlon : searchParamsGet qs "lon" with
          | none => exact absurd hlon m2
          | some lon =>
            refine ⟨qs, lat, lon, rfl, hlat, hlon, ?_, ?_⟩
            · intro he; exact m3 (by rw [hlat, he])
            · intro he; exact m4 (by rw [hlon, he])

/-- The calls of the query before `getInfo`. -/
theorem queryOps_split (lon lat : String) :
    queryOps lon lat =
      [ RemoteOp.point (parseFloat lon) (parseFloat lat), RemoteOp.buffer 500, RemoteOp.bounds,
        RemoteOp.imageCollection "COPERNICUS/S2_SR", RemoteOp.filterBounds,
        RemoteOp.filterDate "2024-01-01" "2024-12-31",
        RemoteOp.filterLt "CLOUDY_PIXEL_PERCENTAGE" 20, RemoteOp.filter, RemoteOp.median,
        RemoteOp.normalizedDifference ["B8", "B4"], RemoteOp.rename "NDVI",
        RemoteOp.reducerMean, RemoteOp.reduceRegion 10 1000000000 ] ++ [RemoteOp.getInfo] :=
  rfl

/-- When the handler has reached `getInfo` and it has not thrown, every call
of the query has been made and none has thrown. -/
theorem query_completed (numToStr : ℚ → String) (req : Request) (ee : Remote)
    (qs : List (String × String)) (lat lon : String) (hu : req.url = some qs)
    (hlat : searchParamsGet qs "lat" = some lat) (hlon : searchParamsGet qs "lon" = some lon)
    (h1 : lat ≠ "") (h2 : lon ≠ "")
    (hmade : RemoteOp.getInfo ∈ (GET numToStr Awaited.resolved req ee).2)
    (hret : ee.throws RemoteOp.getInfo = none) :
    issueAll ee.throws (queryOps lon lat) = (queryOps lon lat, none) := by
  have hin : RemoteOp.getInfo ∈ (issueAll ee.throws (queryOps lon lat)).1 := by
    rw [GET_made, tryBlock_query numToStr req ee qs lat lon hu hlat hlon h1 h2] at hmade
    have hne : RemoteOp.getInfo ≠ getMapOp := by simp [getMapOp]
    split at hmade
    · rename_i made cause heq
      rw [heq]
      exact hmade
    · rename_i made heq
      rw [heq]
      split at hmade
      · simpa [hne] using hmade
      · split at hmade
        · simpa [hne] using hmade
        · simpa [hne] using hmade
  rw [queryOps_split] at hin ⊢
  exact issueAll_reached_last ee.throws _ RemoteOp.getInfo (by simp) hret hin

/-- A response with status 200 comes from line 101 only. -/
theorem GET_200_inv (numToStr : ℚ → String) (a : Awaited) (req : Request) (ee : Remote)
    (h200 : (GET numToStr a req ee).1.status = 200) :
    ∃ meanDict made, ee.getInfo = some meanDict ∧
      GET numToStr a req ee
        = (⟨JSON.stringify numToStr (ndviObject meanDict ee.getMap), 200⟩, made ++ [getMapOp]) := by
  cases htry : tryBlock numToStr a req ee with
  | mk res made =>
    cases res with
    | error cause =>
      rw [GET_of_error numToStr a req ee cause made htry] at h200
      simp at h200
    | ok r =>
      rw [GET_of_ok numToStr a req ee r made htry] at h200 ⊢
      simp only at h200
      cases a with
      | rejected cause => simp [tryBlock_rejected] at htry
      | resolved =>
        cases hu : req.url with
        | none => simp [tryBlock_bad_url numToStr req ee hu] at htry
        | some qs =>
          by_cases hm : searchParamsGet qs "lat" = none ∨ searchParamsGet qs "lon" = none ∨
              searchParamsGet qs "lat" = some "" ∨ searchParamsGet qs "lon" = some ""
          · rw [tryBlock_missing numToStr req ee qs hu hm] at htry
            simp only [Prod.mk.injEq, Except.ok.injEq] at htry
            rw [← htry.1] at h200
            simp at h200
          · simp only [not_or] at hm
            obtain ⟨m1, m2, m3, m4⟩ := hm
            cases hlat : searchParamsGet qs "lat" with
            | none => exact absurd hlat m1
            | some lat =>
              cases hlon : searchParamsGet qs "lon" with
              | none => exact absurd hlon m2
              | some lon =>
                have h1 : lat ≠ "" := fun he => m3 (by rw [hlat, he])
                have h2 : lon ≠ "" := fun he => m4 (by rw [hlon, he])
                rw [tryBlock_query numToStr req ee qs lat lon hu hlat hlon h1 h2] at htry
                split at htry
                · simp at htry
                · rename_i made2 heq
                  split at htry
                  · simp at htry
                  · split at htry
                    · simp at htry
                    · rename_i meanDict hinfo
                      simp only [Prod.mk.injEq, Except.ok.injEq] at htry
                      exact ⟨meanDict, made2, hinfo, by rw [← htry.1, ← htry.2]⟩

theorem lookup_absent (d : List (String × JSValue)) (k : String)
    (h : ∀ v, (k, v) ∉ d) : d.lookup k = none := by
  induction d with
  | nil => rfl
  | cons p d ih =>
    obtain ⟨a, b⟩ := p
    have hne : k ≠ a := by
      intro he
      exact h b (by rw [he]; exact List.mem_cons_self _ _)
    have hrest : ∀ v, (k, v) ∉ d := fun v hv => h v (List.mem_cons_of_mem _ hv)
    have hbeq : (k == a) = false := by simpa using hne
    simp [List.lookup, hbeq, ih hrest]

/-- The body of a success response, character by character. -/
theorem stringify_pair (numToStr : ℚ → String) (v u : JSValue) (tv tu : String)
    (hv : stringifyValue numToStr v = some tv) (hu : stringifyValue numToStr u = some tu) :
    JSON.stringify numToStr [("ndviValue", v), ("mapUrl", u)]
      = "\x7b\"ndviValue\":" ++ tv ++ ",\"mapUrl\":" ++ tu ++ "\x7d" := by
  simp only [JSON.stringify, List.filterMap_cons, List.filterMap_nil, hv, hu, Option.map_some']
  apply String.ext
  simp [String.intercalate, String.intercalate.go, quote, quoteChar]

theorem stringify_mapUrl (numToStr : ℚ → String) (mapId : Option MapId) :
    stringifyValue numToStr (mapUrl mapId)
      = some (match mapId with
          | none => "null"
          | some m => quote (tileUrl m)) := by
  cases mapId <;> rfl

/-- The handler when no client call throws and the reduction result is a
dictionary. -/
theorem GET_query_success (numToStr : ℚ → String) (req : Request) (ee : Remote)
    (qs : List (String × String)) (lat lon : String) (d : List (String × JSValue))
    (hu : req.url = some qs)
    (hlat : searchParamsGet qs "lat" = some lat) (hlon : searchParamsGet qs "lon" = some lon)
    (h1 : lat ≠ "") (h2 : lon ≠ "")
    (hq : ∀ op ∈ queryOps lon lat ++ [getMapOp], ee.throws op = none)
    (hd : ee.getInfo = some d) :
    GET numToStr Awaited.resolved req ee
      = (⟨JSON.stringify numToStr (ndviObject d ee.getMap), 200⟩,
          queryOps lon lat ++ [getMapOp]) := by
  have htry := tryBlock_query numToStr req ee qs lat lon hu hlat hlon h1 h2
  rw [issueAll_none ee.throws (queryOps lon lat)
    (fun op hop => hq op (List.mem_append_left _ hop))] at htry
  have hmap : ee.throws getMapOp = none := hq getMapOp (by simp)
  simp only [hmap, hd] at htry
  exact GET_of_ok numToStr _ req ee _ _ htry

/-- The handler when a client call throws or the reduction result is
`null`. -/
theorem GET_query_failure (numToStr : ℚ → String) (req : Request) (ee : Remote)
    (qs : List (String × String)) (lat lon : String) (hu : req.url = some qs)
    (hlat : searchParamsGet qs "lat" = some lat) (hlon : searchParamsGet qs "lon" = some lon)
    (h1 : lat ≠ "") (h2 : lon ≠ "")
    (hfail : (∃ op ∈ queryOps lon lat ++ [getMapOp], ee.throws op ≠ none) ∨ ee.getInfo = none) :
    (GET numToStr Awaited.resolved req ee).1
      = ⟨"\x7b\"error\":\"Failed to fetch NDVI\"\x7d", 500⟩ := by
  have hq := tryBlock_query numToStr req ee qs lat lon hu hlat hlon h1 h2
  cases hall : issueAll ee.throws (queryOps lon lat) with
  | mk made thrown =>
    rw [hall] at hq
    cases thrown with
    | some cause =>
      simp only at hq
      rw [GET_of_error numToStr _ req ee cause made hq]
    | none =>
      have hquiet := issueAll_quiet ee.throws (queryOps lon lat) (by rw [hall])
      cases hmap : ee.throws getMapOp with
      | some cause =>
        simp only [hmap] at hq
        rw [GET_of_error numToStr _ req ee cause _ hq]
      | none =>
        have hnull : ee.getInfo = none := by
          rcases hfail with ⟨op, hop, hthrow⟩ | hnull
          · rcases List.mem_append.mp hop with hin | hin
            · exact absurd (hquiet op hin) hthrow
            · have : op = getMapOp := by simpa using hin
              rw [this] at hthrow
              exact absurd hmap hthrow
          · exact hnull
        simp only [hmap, hnull] at hq
        rw [GET_of_error numToStr _ req ee _ _ hq]

/-- The first client call of a request with both coordinates. -/
theorem GET_made_head (numToStr : ℚ → String) (req : Request) (ee : Remote)
    (qs : List (String × String)) (lat lon : String) (hu : req.url = some qs)
    (hlat : searchParamsGet qs "lat" = some lat) (hlon : searchParamsGet qs "lon" = some lon)
    (h1 : lat ≠ "") (h2 : lon ≠ "") :
    (GET numToStr Awaited.resolved req ee).2.head?
      = some (RemoteOp.point (parseFloat lon) (parseFloat lat)) := by
  have htry := tryBlock_query numToStr req ee qs lat lon hu hlat hlon h1 h2
  have hhead := issueAll_head ee.throws (RemoteOp.point (parseFloat lon) (parseFloat lat))
    (queryOps lon lat).tail
  have hcons : RemoteOp.point (parseFloat lon) (parseFloat lat) :: (queryOps lon lat).tail
      = queryOps lon lat := rfl
  rw [hcons] at hhead
  rw [GET_made, htry]
  cases hall : issueAll ee.throws (queryOps lon lat) with
  | mk made thrown =>
    rw [hall] at hhead
    simp only at hhead
    have hmade : (made ++ [getMapOp]).head?
        = some (RemoteOp.point (parseFloat lon) (parseFloat lat)) := by
      cases made with
      | nil => simp at hhead
      | cons x xs => simpa using hhead
    cases thrown with
    | some cause => exact hhead
    | none =>
      cases ee.throws getMapOp with
      | some cause => exact hmade
      | none =>
        cases ee.getInfo with
        | none => exact hmade
        | some d => exact hmade

/-! ## The session gate: claims -/

/-- C1.  Single flight.  Take a state with `initialized = false` and no stored
promise, a first call whose credential load succeeds, and any further events
among which no handshake fails.  The first call returns the promise it
creates.  Over the whole run exactly one credential read and one
authentication call are made.  Every later call that arrives before
`initialized` is set returns that same promise, which is then still pending,
and every later call that arrives after `initialized` is set returns at once;
neither changes the state. -/
theorem single_flight_handshake (s0 : Session) (key : String) (evs : List Event)
    (h0 : s0.initialized = false) (hp0 : s0.eeInitializePromise = none)
    (hok : ∀ e ∈ evs, e.noFailure = true) :
    (initEarthEngine (Except.ok key) s0).2 = some s0.promises.length ∧
    (run s0 (Event.call (Except.ok key) :: evs)).credentialReads = s0.credentialReads + 1 ∧
    (run s0 (Event.call (Except.ok key) :: evs)).authCalls = s0.authCalls + 1 ∧
    ∀ pre cred post, evs = pre ++ Event.call cred :: post →
      ((run s0 (Event.call (Except.ok key) :: pre)).initialized = false →
        initEarthEngine cred (run s0 (Event.call (Except.ok key) :: pre))
            = (run s0 (Event.call (Except.ok key) :: pre), some s0.promises.length) ∧
          (run s0 (Event.call (Except.ok key) :: pre)).promises.get? s0.promises.length
            = some Settled.pending) ∧
      ((run s0 (Event.call (Except.ok key) :: pre)).initialized = true →
        initEarthEngine cred (run s0 (Event.call (Except.ok key) :: pre))
            = (run s0 (Event.call (Except.ok key) :: pre), none)) := by
  have hfirst := first_call_singleFlight s0 key h0 hp0
  have hall := run_singleFlight s0 evs _ hfirst hok
  refine ⟨?_, hall.2.1, hall.2.2.1, ?_⟩
  · rw [initEarthEngine_start_ok key s0 h0 hp0]
  · intro pre cred post hsplit
    have hpre : ∀ e ∈ pre, e.noFailure = true := by
      intro e he
      exact hok e (by rw [hsplit]; exact List.mem_append_left _ he)
    have hs := run_singleFlight s0 pre _ hfirst hpre
    rw [run_cons]
    refine ⟨fun hi => ⟨initEarthEngine_attach cred _ _ hi hs.1, hs.2.2.2 hi⟩, fun hi => ?_⟩
    exact initEarthEngine_ready cred _ hi

theorem single_flight_handshake_witness :
    (run Session.start [Event.call (Except.ok "key"), Event.call (Except.ok "key"),
      Event.authOk 0, Event.call (Except.ok "key"), Event.initOk 0,
      Event.call (Except.ok "key")]).credentialReads = 1 :=
  (single_flight_handshake Session.start "key"
    [Event.call (Except.ok "key"), Event.authOk 0, Event.call (Except.ok "key"),
      Event.initOk 0, Event.call (Except.ok "key")] rfl rfl (by decide)).2.1

/-- C2, evaluated on the code.  The first call is made in the state of module
load and reading the credential file throws `ENOENT`.  When the call has
returned, `eeInitializePromise` holds the rejected promise, not `null`: the
assignment of line 25 is made after the `catch` block has run.  The next call,
whose credential file would be readable, returns that rejected promise and
reads nothing, and so does every later call, whatever else happens. -/
theorem credential_failure_keeps_rejected_promise :
    (initEarthEngine (Except.error "ENOENT") Session.start).1.eeInitializePromise = some 0 ∧
    (initEarthEngine (Except.error "ENOENT") Session.start).1.promises.get? 0
      = some (Settled.rejected "ENOENT") ∧
    initEarthEngine (Except.ok "key") (initEarthEngine (Except.error "ENOENT") Session.start).1
      = ((initEarthEngine (Except.error "ENOENT") Session.start).1, some 0) ∧
    (initEarthEngine (Except.ok "key")
      (initEarthEngine (Except.error "ENOENT") Session.start).1).1.credentialReads = 1 ∧
    ∀ evs : List Event,
      run (initEarthEngine (Except.error "ENOENT") Session.start).1 evs
        = (initEarthEngine (Except.error "ENOENT") Session.start).1 := by
  refine ⟨rfl, rfl, rfl, rfl, ?_⟩
  intro evs
  exact run_stuck _ 0 evs rfl rfl rfl rfl

/-- C3.  Retry after a rejected authentication.  A call in a state with
`initialized = false` and no stored promise starts a handshake and returns its
pending promise `p`; every call made before the client answers returns `p`
too and changes nothing.  When the error callback of
`authenticateViaPrivateKey` then fires with `err`, promise `p` is rejected
with `err`, `initialized` is `false` and `eeInitializePromise` is `null`.  The
next call reads the credential file again and returns a new promise, and when
the read succeeds it calls `authenticateViaPrivateKey` again, the new promise
being pending. -/
theorem retry_after_rejected_authentication (s : Session) (key err : String)
    (h0 : s.initialized = false) (hp0 : s.eeInitializePromise = none) :
    (initEarthEngine (Except.ok key) s).2 = some s.promises.length ∧
    (initEarthEngine (Except.ok key) s).1.promises.get? s.promises.length
      = some Settled.pending ∧
    (∀ cred, initEarthEngine cred (initEarthEngine (Except.ok key) s).1
      = ((initEarthEngine (Except.ok key) s).1, some s.promises.length)) ∧
    (∀ creds : List (Except String String),
      run (initEarthEngine (Except.ok key) s).1 (creds.map Event.call)
        = (initEarthEngine (Except.ok key) s).1) ∧
    (step (initEarthEngine (Except.ok key) s).1
      (Event.authErr s.promises.length err)).promises.get? s.promises.length
        = some (Settled.rejected err) ∧
    awaitInit (step (initEarthEngine (Except.ok key) s).1 (Event.authErr s.promises.length err))
      (some s.promises.length) = some (Awaited.rejected err) ∧
    (step (initEarthEngine (Except.ok key) s).1
      (Event.authErr s.promises.length err)).initialized = false ∧
    (step (initEarthEngine (Except.ok key) s).1
      (Event.authErr s.promises.length err)).eeInitializePromise = none ∧
    (∀ cred,
      (initEarthEngine cred (step (initEarthEngine (Except.ok key) s).1
        (Event.authErr s.promises.length err))).2 = some (s.promises.length + 1) ∧
      (initEarthEngine cred (step (initEarthEngine (Except.ok key) s).1
        (Event.authErr s.promises.length err))).1.credentialReads = s.credentialReads + 2) ∧
    (∀ key2,
      (initEarthEngine (Except.ok key2) (step (initEarthEngine (Except.ok key) s).1
        (Event.authErr s.promises.length err))).1.authCalls = s.authCalls + 2 ∧
      (initEarthEngine (Except.ok key2) (step (initEarthEngine (Except.ok key) s).1
        (Event.authErr s.promises.length err))).1.promises.get? (s.promises.length + 1)
          = some Settled.pending) := by
  have hpend : (s.promises ++ [Settled.pending]).get? s.promises.length
      = some Settled.pending := by simp
  have hrej := settle_get_pending s.promises.length (Settled.rejected err) _ hpend
  have hlen := settle_length s.promises.length (Settled.rejected err)
    (s.promises ++ [Settled.pending])
  rw [initEarthEngine_start_ok key s h0 hp0]
  refine ⟨rfl, hpend, ?_, ?_, ?_, ?_, ?_, ?_, ?_, ?_⟩
  · intro cred
    exact initEarthEngine_attach cred _ _ h0 rfl
  · intro creds
    exact run_calls_attach _ s.promises.length creds h0 rfl
  · simp only [step, List.mem_cons, true_or, if_true]
    exact hrej
  · simp only [step, List.mem_cons, true_or, if_true, awaitInit]
    rw [hrej]
  · simp [step]
  · simp [step]
  · intro cred
    cases cred with
    | ok key2 =>
      rw [initEarthEngine_start_ok key2 _ (by simp [step]) (by simp [step])]
      simp [step, hlen]
    | error e2 =>
      rw [initEarthEngine_start_error e2 _ (by simp [step]) (by simp [step])]
      simp [step, hlen]
  · intro key2
    rw [initEarthEngine_start_ok key2 _ (by simp [step]) (by simp [step])]
    refine ⟨by simp [step], ?_⟩
    simp only [step, List.mem_cons, true_or, if_true]
    have := hlen
    simp only [List.length_append, List.length_singleton] at this
    rw [← this]
    simp

theorem retry_after_rejected_authentication_witness :
    (initEarthEngine (Except.ok "key") (step (initEarthEngine (Except.ok "key") Session.start).1
      (Event.authErr 0 "invalid_grant"))).2 = some 1 :=
  ((retry_after_rejected_authentication Session.start "key" "invalid_grant" rfl rfl).2.2.2.2.2.2.2.2.1
    (Except.ok "key")).1

/-- C4, evaluated on the code.  The credential load and the authentication
succeed and the `ee.initialize` call fails.  Line 34 passes no error callback,
so nothing rejects the promise: it stays pending, `initialized` stays `false`
and the promise stays stored, the awaiting handler is never resumed, and no
later event changes any of this. -/
theorem initialize_failure_never_settles :
    (run Session.start
      [Event.call (Except.ok "key"), Event.authOk 0, Event.initFail 0]).promises.get? 0
        = some Settled.pending ∧
    (run Session.start
      [Event.call (Except.ok "key"), Event.authOk 0, Event.initFail 0]).initialized = false ∧
    (run Session.start
      [Event.call (Except.ok "key"), Event.authOk 0, Event.initFail 0]).eeInitializePromise
        = some 0 ∧
    ∀ evs : List Event,
      run (run Session.start
        [Event.call (Except.ok "key"), Event.authOk 0, Event.initFail 0]) evs
        = run Session.start [Event.call (Except.ok "key"), Event.authOk 0, Event.initFail 0] ∧
      awaitInit (run (run Session.start
        [Event.call (Except.ok "key"), Event.authOk 0, Event.initFail 0]) evs) (some 0)
        = none := by
  refine ⟨by decide, by decide, by decide, ?_⟩
  intro evs
  have h := run_stuck (run Session.start
    [Event.call (Except.ok "key"), Event.authOk 0, Event.initFail 0]) 0 evs
    (by decide) (by decide) (by decide) (by decide)
  rw [h]
  exact ⟨rfl, by decide⟩

/-! ## The request handler: claims -/

/-- C5.  No query before Ready.  A request calls `initEarthEngine` in any
state reached from module load and is resumed after any further events, once
the returned promise has settled with `a`.  When `a` is a resolution,
`initialized` is `true` at that moment.  The handler calls the client only
after a resolution.  When `a` is a rejection, the handler makes no client call
and returns status 500. -/
theorem no_query_before_ready (numToStr : ℚ → String) (pre post : List Event)
    (cred : Except String String) (req : Request) (ee : Remote) (a : Awaited)
    (h : awaitInit (run (initEarthEngine cred (run Session.start pre)).1 post)
      (initEarthEngine cred (run Session.start pre)).2 = some a) :
    (a = Awaited.resolved →
      (run (initEarthEngine cred (run Session.start pre)).1 post).initialized = true) ∧
    ((GET numToStr a req ee).2 ≠ [] → a = Awaited.resolved ∧
      (run (initEarthEngine cred (run Session.start pre)).1 post).initialized = true) ∧
    (∀ cause, a = Awaited.rejected cause →
      (GET numToStr a req ee).2 = [] ∧ (GET numToStr a req ee).1.status = 500) := by
  have hinv1 : Inv (run Session.start pre) := run_inv pre _ start_inv
  have hinv2 : Inv (initEarthEngine cred (run Session.start pre)).1 :=
    step_inv _ (Event.call cred) hinv1
  have hinv3 := run_inv post _ hinv2
  have hres : a = Awaited.resolved →
      (run (initEarthEngine cred (run Session.start pre)).1 post).initialized = true := by
    intro ha
    subst ha
    cases hret : (initEarthEngine cred (run Session.start pre)).2 with
    | none =>
      have hi := initEarthEngine_none cred _ hret
      rw [initEarthEngine_ready cred _ hi]
      exact run_ready post _ hinv1 hi
    | some p =>
      rw [hret] at h
      simp only [awaitInit] at h
      cases hget : (run (initEarthEngine cred (run Session.start pre)).1 post).promises.get? p with
      | none => simp [← List.get?_eq_getElem?, hget] at h
      | some v =>
        cases v with
        | pending => simp [← List.get?_eq_getElem?, hget] at h
        | fulfilled => exact hinv3.2.2.2 p hget
        | rejected c => simp [← List.get?_eq_getElem?, hget] at h
  refine ⟨hres, ?_, ?_⟩
  · intro hmade
    have := (made_inv numToStr a req ee hmade).1
    exact ⟨this, hres this⟩
  · intro cause ha
    subst ha
    rw [GET_of_error numToStr _ req ee cause [] (tryBlock_rejected numToStr cause req ee)]
    exact ⟨rfl, rfl⟩

theorem no_query_before_ready_witness :
    (run (initEarthEngine (Except.ok "key") (run Session.start [])).1
      [Event.authOk 0, Event.initOk 0]).initialized = true :=
  (no_query_before_ready (fun _ => "0") [] [Event.authOk 0, Event.initOk 0] (Except.ok "key")
    ⟨some [("lat", "12.9"), ("lon", "77.6")]⟩ ⟨fun _ => none, none, none⟩ Awaited.resolved
    (by decide)).1 rfl

/-- C6 as stated fails.  The request has no `lat`, and the handshake that its
call starts fails on the credential file: the awaited promise is rejected and
the handler answers 500 with the generic body, not 400. -/
theorem missing_coordinate_after_failed_handshake :
    awaitInit (initEarthEngine (Except.error "ENOENT") Session.start).1
      (initEarthEngine (Except.error "ENOENT") Session.start).2
        = some (Awaited.rejected "ENOENT") ∧
    (GET (fun _ => "0") (Awaited.rejected "ENOENT") ⟨some [("lon", "77.6")]⟩
      ⟨fun _ => none, none, none⟩).1
        = ⟨"\x7b\"error\":\"Failed to fetch NDVI\"\x7d", 500⟩ ∧
    (GET (fun _ => "0") (Awaited.rejected "ENOENT") ⟨some [("lon", "77.6")]⟩
      ⟨fun _ => none, none, none⟩).1.status ≠ 400 := by
  refine ⟨by decide, by rfl, by decide⟩

/-- C6, amended.  For a request whose URL parses and whose query string lacks
`lat` or lacks `lon`: when the awaited `initEarthEngine` call resolves, `GET`
makes no client call and returns status 400 with the body
`{"error":"lat and lon required"}`, whatever the client would answer; when it
rejects, `GET` returns status 500. -/
theorem missing_coordinate_is_400_once_ready (numToStr : ℚ → String) (req : Request)
    (ee : Remote) (qs : List (String × String)) (hu : req.url = some qs)
    (hmiss : searchParamsGet qs "lat" = none ∨ searchParamsGet qs "lon" = none) :
    GET numToStr Awaited.resolved req ee
      = (⟨"\x7b\"error\":\"lat and lon required\"\x7d", 400⟩, []) ∧
    ∀ cause, (GET numToStr (Awaited.rejected cause) req ee).1.status = 500 := by
  refine ⟨?_, ?_⟩
  · apply GET_of_ok
    apply tryBlock_missing numToStr req ee qs hu
    rcases hmiss with h | h
    · exact Or.inl h
    · exact Or.inr (Or.inl h)
  · intro cause
    rw [GET_of_error numToStr _ req ee cause [] (tryBlock_rejected numToStr cause req ee)]

theorem missing_coordinate_is_400_once_ready_witness :
    GET (fun _ => "0") Awaited.resolved ⟨some [("lat", "12.9")]⟩ ⟨fun _ => none, none, none⟩
      = (⟨"\x7b\"error\":\"lat and lon required\"\x7d", 400⟩, []) :=
  (missing_coordinate_is_400_once_ready (fun _ => "0") ⟨some [("lat", "12.9")]⟩
    ⟨fun _ => none, none, none⟩ [("lat", "12.9")] rfl (Or.inr (by decide))).1

/-- C7.  Every failure inside the handler other than a missing coordinate
ends in the same response: status 500 with the body
`{"error":"Failed to fetch NDVI"}`, which has the one field `error` and does
not depend on the cause.  This holds when the awaited `initEarthEngine` call
rejects, when the URL does not parse, when a client call of the query or
`getMap` throws, when the reduction result is `null`, and for whatever cause
the `try` block throws.  `GET` is a total function: it returns a response in
every case. -/
theorem failures_are_generic_500 (numToStr : ℚ → String) (req : Request) (ee : Remote) :
    (∀ cause, GET numToStr (Awaited.rejected cause) req ee
      = (⟨"\x7b\"error\":\"Failed to fetch NDVI\"\x7d", 500⟩, [])) ∧
    (req.url = none → GET numToStr Awaited.resolved req ee
      = (⟨"\x7b\"error\":\"Failed to fetch NDVI\"\x7d", 500⟩, [])) ∧
    (∀ qs lat lon, req.url = some qs → searchParamsGet qs "lat" = some lat →
      searchParamsGet qs "lon" = some lon → lat ≠ "" → lon ≠ "" →
      ((∃ op ∈ queryOps lon lat ++ [getMapOp], ee.throws op ≠ none) ∨ ee.getInfo = none) →
      (GET numToStr Awaited.resolved req ee).1
        = ⟨"\x7b\"error\":\"Failed to fetch NDVI\"\x7d", 500⟩) ∧
    (∀ a cause, (tryBlock numToStr a req ee).1 = Except.error cause →
      (GET numToStr a req ee).1 = ⟨"\x7b\"error\":\"Failed to fetch NDVI\"\x7d", 500⟩) ∧
    (∀ a, (GET numToStr a req ee).1.status = 500 →
      (GET numToStr a req ee).1.body = "\x7b\"error\":\"Failed to fetch NDVI\"\x7d") := by
  have hgen : ∀ a cause, (tryBlock numToStr a req ee).1 = Except.error cause →
      (GET numToStr a req ee).1 = ⟨"\x7b\"error\":\"Failed to fetch NDVI\"\x7d", 500⟩ := by
    intro a cause hc
    have : tryBlock numToStr a req ee = (Except.error cause, (tryBlock numToStr a req ee).2) := by
      rw [← hc]
    rw [GET_of_error numToStr a req ee cause _ this]
  refine ⟨?_, ?_, ?_, hgen, ?_⟩
  · intro cause
    exact GET_of_error numToStr _ req ee cause [] (tryBlock_rejected numToStr cause req ee)
  · intro hu
    exact GET_of_error numToStr _ req ee _ [] (tryBlock_bad_url numToStr req ee hu)
  · intro qs lat lon hu hlat hlon h1 h2 hfail
    have hq := tryBlock_query numToStr req ee qs lat lon hu hlat hlon h1 h2
    cases hall : issueAll ee.throws (queryOps lon lat) with
    | mk made thrown =>
      rw [hall] at hq
      cases thrown with
      | some cause => exact hgen _ cause (by rw [hq])
      | none =>
        have hquiet := issueAll_quiet ee.throws (queryOps lon lat) (by rw [hall])
        cases hmap : ee.throws getMapOp with
        | some cause =>
          simp only [hmap] at hq
          exact hgen _ cause (by rw [hq])
        | none =>
          have hnull : ee.getInfo = none := by
            rcases hfail with ⟨op, hop, hthrow⟩ | hnull
            · rcases List.mem_append.mp hop with hin | hin
              · exact absurd (hquiet op hin) hthrow
              · have : op = getMapOp := by simpa using hin
                rw [this] at hthrow
                exact absurd hmap hthrow
            · exact hnull
          simp only [hmap, hnull] at hq
          exact hgen _ _ (by rw [hq])
  · intro a hstatus
    cases htry : tryBlock numToStr a req ee with
    | mk res made =>
      cases res with
      | error cause => rw [GET_of_error numToStr a req ee cause made htry]
      | ok r =>
        rw [GET_of_ok numToStr a req ee r made htry] at hstatus ⊢
        exfalso
        simp only at hstatus
        cases a with
        | rejected cause => simp [tryBlock_rejected] at htry
        | resolved =>
          cases hu : req.url with
          | none => simp [tryBlock_bad_url numToStr req ee hu] at htry
          | some qs =>
            by_cases hm : searchParamsGet qs "lat" = none ∨ searchParamsGet qs "lon" = none ∨
                searchParamsGet qs "lat" = some "" ∨ searchParamsGet qs "lon" = some ""
            · rw [tryBlock_missing numToStr req ee qs hu hm] at htry
              simp only [Prod.mk.injEq, Except.ok.injEq] at htry
              rw [← htry.1] at hstatus
              simp at hstatus
            · simp only [not_or] at hm
              obtain ⟨m1, m2, m3, m4⟩ := hm
              cases hlat : searchParamsGet qs "lat" with
              | none => exact m1 hlat
              | some lat =>
                cases hlon : searchParamsGet qs "lon" with
                | none => exact m2 hlon
                | some lon =>
                  have h1 : lat ≠ "" := fun he => m3 (by rw [hlat, he])
                  have h2 : lon ≠ "" := fun he => m4 (by rw [hlon, he])
                  rw [tryBlock_query numToStr req ee qs lat lon hu hlat hlon h1 h2] at htry
                  split at htry
                  · simp at htry
                  · split at htry
                    · simp at htry
                    · split at htry
                      · simp at htry
                      · simp only [Prod.mk.injEq, Except.ok.injEq] at htry
                        rw [← htry.1] at hstatus
                        simp at hstatus

theorem failures_are_generic_500_witness :
    (GET (fun _ => "0") Awaited.resolved ⟨some [("lat", "12.9"), ("lon", "77.6")]⟩
      ⟨fun op => if op = RemoteOp.getInfo then some "quota" else none, none, none⟩).1
        = ⟨"\x7b\"error\":\"Failed to fetch NDVI\"\x7d", 500⟩ :=
  (failures_are_generic_500 (fun _ => "0") ⟨some [("lat", "12.9"), ("lon", "77.6")]⟩
    ⟨fun op => if op = RemoteOp.getInfo then some "quota" else none, none, none⟩).2.2.1
    [("lat", "12.9"), ("lon", "77.6")] "12.9" "77.6" rfl (by decide) (by decide)
    (by decide) (by decide) (Or.inr rfl)

/-- C8 as stated fails for a number that is not finite.  The session is ready,
both coordinates are given and the client answers every call.  When the
`NDVI` entry of the reduction result is `Infinity`, the operator `||` keeps it
and `JSON.stringify` writes `null`: the body carries `"ndviValue":null`.  When
the entry is `NaN`, which is falsy, the body carries `"ndviValue":0`.  In
neither case is the entry passed through unchanged. -/
theorem non_finite_reduction_is_not_passed_through :
    GET (fun _ => "0") Awaited.resolved ⟨some [("lat", "12.9"), ("lon", "77.6")]⟩
      ⟨fun _ => none, some [("NDVI", JSValue.number (JSNumber.inf false))], none⟩
        = (⟨"\x7b\"ndviValue\":null,\"mapUrl\":null\x7d", 200⟩,
            queryOps "77.6" "12.9" ++ [getMapOp]) ∧
    GET (fun _ => "0") Awaited.resolved ⟨some [("lat", "12.9"), ("lon", "77.6")]⟩
      ⟨fun _ => none, some [("NDVI", JSValue.number JSNumber.nan)], none⟩
        = (⟨"\x7b\"ndviValue\":0,\"mapUrl\":null\x7d", 200⟩,
            queryOps "77.6" "12.9" ++ [getMapOp]) := by
  refine ⟨by decide, by decide⟩

/-- C8, amended.  The awaited `initEarthEngine` call has resolved, the handler
has reached the `getInfo` call of the reduction, which has returned the
dictionary `meanDict`, and `getMap` does not throw.  Then `GET` returns status
200 and a body of the form `{"ndviValue":N,"mapUrl":M}`, where `M` is `null`
or the quoted tile URL.  When the `NDVI` entry of `meanDict` is `null` or
absent, the value serialised is the number 0 and `N` is the text of 0.  When
the entry is a finite number `v` other than zero, the value serialised is `v`
and `N` is the text of `v`.  When the entry is `NaN`, `N` is the text of 0.
When the entry is infinite, `N` is `null`. -/
theorem empty_reduction_defaults_to_zero (numToStr : ℚ → String) (req : Request) (ee : Remote)
    (meanDict : List (String × JSValue))
    (hmade : RemoteOp.getInfo ∈ (GET numToStr Awaited.resolved req ee).2)
    (hret : ee.throws RemoteOp.getInfo = none) (hinfo : ee.getInfo = some meanDict)
    (hmap : ee.throws getMapOp = none) :
    ((meanDict.lookup "NDVI" = some JSValue.null ∨ ∀ v, ("NDVI", v) ∉ meanDict) →
      (GET numToStr Awaited.resolved req ee).1
        = ⟨JSON.stringify numToStr
            [("ndviValue", JSValue.number (JSNumber.finite 0)), ("mapUrl", mapUrl ee.getMap)],
          200⟩ ∧
      (GET numToStr Awaited.resolved req ee).1
        = ⟨"\x7b\"ndviValue\":" ++ numToStr 0 ++ ",\"mapUrl\":"
            ++ (match ee.getMap with
                | none => "null"
                | some m => quote (tileUrl m)) ++ "\x7d", 200⟩) ∧
    (∀ v : ℚ, v ≠ 0 → meanDict.lookup "NDVI" = some (JSValue.number (JSNumber.finite v)) →
      (GET numToStr Awaited.resolved req ee).1
        = ⟨JSON.stringify numToStr
            [("ndviValue", JSValue.number (JSNumber.finite v)), ("mapUrl", mapUrl ee.getMap)],
          200⟩ ∧
      (GET numToStr Awaited.resolved req ee).1
        = ⟨"\x7b\"ndviValue\":" ++ numToStr v ++ ",\"mapUrl\":"
            ++ (match ee.getMap with
                | none => "null"
                | some m => quote (tileUrl m)) ++ "\x7d", 200⟩) ∧
    (meanDict.lookup "NDVI" = some (JSValue.number JSNumber.nan) →
      (GET numToStr Awaited.resolved req ee).1
        = ⟨"\x7b\"ndviValue\":" ++ numToStr 0 ++ ",\"mapUrl\":"
            ++ (match ee.getMap with
                | none => "null"
                | some m => quote (tileUrl m)) ++ "\x7d", 200⟩) ∧
    (∀ negative : Bool,
      meanDict.lookup "NDVI" = some (JSValue.number (JSNumber.inf negative)) →
      (GET numToStr Awaited.resolved req ee).1
        = ⟨"\x7b\"ndviValue\":null,\"mapUrl\":"
            ++ (match ee.getMap with
                | none => "null"
                | some m => quote (tileUrl m)) ++ "\x7d", 200⟩) := by
  obtain ⟨_, qs, lat, lon, hu, hlat, hlon, h1, h2⟩ :=
    made_inv numToStr Awaited.resolved req ee (List.ne_nil_of_mem hmade)
  have hall := query_completed numToStr req ee qs lat lon hu hlat hlon h1 h2 hmade hret
  have htry := tryBlock_query numToStr req ee qs lat lon hu hlat hlon h1 h2
  rw [hall] at htry
  simp only [hmap, hinfo] at htry
  rw [GET_of_ok numToStr _ req ee _ _ htry]
  have hobj : ∀ w, getField meanDict "NDVI" = w →
      ndviObject meanDict ee.getMap
        = [("ndviValue", w.orElse (JSValue.number (JSNumber.finite 0))),
            ("mapUrl", mapUrl ee.getMap)] := by
    intro w hw
    rw [ndviObject, hw]
  have hzero : ∀ w, getField meanDict "NDVI" = w → w.truthy = false →
      (⟨JSON.stringify numToStr (ndviObject meanDict ee.getMap), 200⟩ : Response)
        = ⟨"\x7b\"ndviValue\":" ++ numToStr 0 ++ ",\"mapUrl\":"
            ++ (match ee.getMap with
                | none => "null"
                | some m => quote (tileUrl m)) ++ "\x7d", 200⟩ := by
    intro w hw hf
    rw [hobj w hw, JSValue.orElse, hf]
    simp only [Bool.false_eq_true, if_false]
    rw [stringify_pair numToStr (JSValue.number (JSNumber.finite 0)) (mapUrl ee.getMap)
      (numToStr 0) _ rfl (stringify_mapUrl numToStr ee.getMap)]
  refine ⟨?_, ?_, ?_, ?_⟩
  · intro hnone
    have hw : getField meanDict "NDVI" = JSValue.null ∨
        getField meanDict "NDVI" = JSValue.undefined := by
      rcases hnone with h | h
      · exact Or.inl (by rw [getField, h]; rfl)
      · exact Or.inr (by rw [getField, lookup_absent meanDict "NDVI" h]; rfl)
    rcases hw with hw | hw
    · exact ⟨by rw [hobj _ hw]; rfl, hzero _ hw rfl⟩
    · exact ⟨by rw [hobj _ hw]; rfl, hzero _ hw rfl⟩
  · intro v hv h
    have hw : getField meanDict "NDVI" = JSValue.number (JSNumber.finite v) := by
      rw [getField, h]; rfl
    have hor : (JSValue.number (JSNumber.finite v)).orElse (JSValue.number (JSNumber.finite 0))
        = JSValue.number (JSNumber.finite v) := by
      simp [JSValue.orElse, JSValue.truthy, hv]
    rw [hobj _ hw, hor]
    refine ⟨rfl, ?_⟩
    rw [stringify_pair numToStr (JSValue.number (JSNumber.finite v)) (mapUrl ee.getMap)
      (numToStr v) _ rfl (stringify_mapUrl numToStr ee.getMap)]
  · intro h
    exact hzero (JSValue.number JSNumber.nan) (by rw [getField, h]; rfl) rfl
  · intro negative h
    have hw : getField meanDict "NDVI" = JSValue.number (JSNumber.inf negative) := by
      rw [getField, h]; rfl
    have hor : (JSValue.number (JSNumber.inf negative)).orElse
        (JSValue.number (JSNumber.finite 0)) = JSValue.number (JSNumber.inf negative) := by
      simp [JSValue.orElse, JSValue.truthy]
    rw [hobj _ hw, hor]
    rw [stringify_pair numToStr (JSValue.number (JSNumber.inf negative)) (mapUrl ee.getMap)
      "null" _ rfl (stringify_mapUrl numToStr ee.getMap)]
    rfl

theorem empty_reduction_defaults_to_zero_witness :
    (GET (fun _ => "0") Awaited.resolved ⟨some [("lat", "12.9"), ("lon", "77.6")]⟩
      ⟨fun _ => none, some [("B8", JSValue.null)], none⟩).1
        = ⟨"\x7b\"ndviValue\":" ++ "0" ++ ",\"mapUrl\":" ++ "null" ++ "\x7d", 200⟩ :=
  ((empty_reduction_defaults_to_zero (fun _ => "0") ⟨some [("lat", "12.9"), ("lon", "77.6")]⟩
    ⟨fun _ => none, some [("B8", JSValue.null)], none⟩ [("B8", JSValue.null)]
    (by decide) rfl rfl rfl).1 (Or.inr (by simp))).2

/-- C9.  Tile URL or null.  In every response of `GET` with status 200, the
body is the serialisation of an object with the two fields `ndviValue` and
`mapUrl`, and the `getMap` call has been made.  `mapUrl` is `null` exactly
when `getMap` returned no map identifier; when it returned the identifier and
token `m`, `mapUrl` is the string made of
`https://earthengine.googleapis.com/map/`, the identifier, the literal
`/{z}/{x}/{y}?token=` and the token. -/
theorem tile_url_or_null (numToStr : ℚ → String) (a : Awaited) (req : Request) (ee : Remote)
    (h200 : (GET numToStr a req ee).1.status = 200) :
    (∃ ndviValue, (GET numToStr a req ee).1.body
      = JSON.stringify numToStr [("ndviValue", ndviValue), ("mapUrl", mapUrl ee.getMap)]) ∧
    getMapOp ∈ (GET numToStr a req ee).2 ∧
    (mapUrl ee.getMap = JSValue.null ↔ ee.getMap = none) ∧
    (∀ m, ee.getMap = some m →
      mapUrl ee.getMap = JSValue.string ("https://earthengine.googleapis.com/map/" ++ m.mapid
        ++ "/\x7bz\x7d/\x7bx\x7d/\x7by\x7d?token=" ++ m.token)) := by
  obtain ⟨meanDict, made, _, hget⟩ := GET_200_inv numToStr a req ee h200
  rw [hget]
  refine ⟨⟨_, rfl⟩, by simp, ?_, ?_⟩
  · cases ee.getMap <;> simp [mapUrl]
  · intro m hm
    rw [hm]
    simp [mapUrl, tileUrl, String.append_assoc]

theorem tile_url_or_null_witness :
    mapUrl (some (⟨"abc123", "tok"⟩ : MapId))
      = JSValue.string ("https://earthengine.googleapis.com/map/" ++ "abc123"
        ++ "/\x7bz\x7d/\x7bx\x7d/\x7by\x7d?token=" ++ "tok") :=
  (tile_url_or_null (fun _ => "0") Awaited.resolved ⟨some [("lat", "12.9"), ("lon", "77.6")]⟩
    ⟨fun _ => none, some [("NDVI", JSValue.null)], some ⟨"abc123", "tok"⟩⟩
    (by decide)).2.2.2 ⟨"abc123", "tok"⟩ rfl

/-- C10 as stated fails.  The request has `lat=abc`, for which `parseFloat`
yields `NaN`, and `lon=77.6`; the session is ready and the client answers
every call, the reduction having no `NDVI` value.  `GET` does not answer 400:
it calls `ee.Geometry.Point` with the `NaN` latitude, makes the whole query
and returns status 200. -/
theorem non_numeric_latitude_reaches_the_query :
    parseFloat "abc" = ParsedFloat.nan ∧
    (GET (fun _ => "0") Awaited.resolved ⟨some [("lat", "abc"), ("lon", "77.6")]⟩
      ⟨fun _ => none, some [("NDVI", JSValue.null)], none⟩).1
        = ⟨"\x7b\"ndviValue\":0,\"mapUrl\":null\x7d", 200⟩ ∧
    (GET (fun _ => "0") Awaited.resolved ⟨some [("lat", "abc"), ("lon", "77.6")]⟩
      ⟨fun _ => none, some [("NDVI", JSValue.null)], none⟩).2
        = queryOps "77.6" "abc" ++ [getMapOp] ∧
    (queryOps "77.6" "abc").head?
        = some (RemoteOp.point (ParsedFloat.literal "77.6") ParsedFloat.nan) := by
  refine ⟨by decide, by decide, by decide, by decide⟩

/-- C10, amended.  For a request whose `lat` and `lon` are both present and
not empty, at least one of them being text for which `parseFloat` yields
`NaN`, and with the session ready: `GET` does not answer 400.  Its first
client call is `ee.Geometry.Point` with the two parsed values, one of which
is `NaN`.  When no client call throws and the reduction result is not `null`,
it makes the whole query and returns status 200.  Otherwise it returns status
500 with the body `{"error":"Failed to fetch NDVI"}`. -/
theorem non_numeric_coordinate_goes_to_the_client (numToStr : ℚ → String) (req : Request)
    (ee : Remote) (qs : List (String × String)) (lat lon : String) (hu : req.url = some qs)
    (hlat : searchParamsGet qs "lat" = some lat) (hlon : searchParamsGet qs "lon" = some lon)
    (h1 : lat ≠ "") (h2 : lon ≠ "")
    (hnan : parseFloat lat = ParsedFloat.nan ∨ parseFloat lon = ParsedFloat.nan) :
    (GET numToStr Awaited.resolved req ee).1.status ≠ 400 ∧
    (∃ x y, (GET numToStr Awaited.resolved req ee).2.head? = some (RemoteOp.point x y) ∧
      x = parseFloat lon ∧ y = parseFloat lat ∧ (x = ParsedFloat.nan ∨ y = ParsedFloat.nan)) ∧
    (((∀ op ∈ queryOps lon lat ++ [getMapOp], ee.throws op = none) ∧ ee.getInfo ≠ none) →
      (GET numToStr Awaited.resolved req ee).1.status = 200 ∧
      (GET numToStr Awaited.resolved req ee).2 = queryOps lon lat ++ [getMapOp]) ∧
    (¬ ((∀ op ∈ queryOps lon lat ++ [getMapOp], ee.throws op = none) ∧ ee.getInfo ≠ none) →
      (GET numToStr Awaited.resolved req ee).1
        = ⟨"\x7b\"error\":\"Failed to fetch NDVI\"\x7d", 500⟩) := by
  have hok : ((∀ op ∈ queryOps lon lat ++ [getMapOp], ee.throws op = none) ∧
      ee.getInfo ≠ none) →
      (GET numToStr Awaited.resolved req ee).1.status = 200 ∧
      (GET numToStr Awaited.resolved req ee).2 = queryOps lon lat ++ [getMapOp] := by
    intro hq
    cases hd : ee.getInfo with
    | none => exact absurd hd hq.2
    | some d =>
      rw [GET_query_success numToStr req ee qs lat lon d hu hlat hlon h1 h2 hq.1 hd]
      exact ⟨rfl, rfl⟩
  have hbad : ¬ ((∀ op ∈ queryOps lon lat ++ [getMapOp], ee.throws op = none) ∧
      ee.getInfo ≠ none) →
      (GET numToStr Awaited.resolved req ee).1
        = ⟨"\x7b\"error\":\"Failed to fetch NDVI\"\x7d", 500⟩ := by
    intro hq
    apply GET_query_failure numToStr req ee qs lat lon hu hlat hlon h1 h2
    by_cases hA : ∀ op ∈ queryOps lon lat ++ [getMapOp], ee.throws op = none
    · right
      by_contra hB
      exact hq ⟨hA, hB⟩
    · left
      push_neg at hA
      obtain ⟨op, hop, hthrow⟩ := hA
      exact ⟨op, hop, hthrow⟩
  refine ⟨?_, ?_, hok, hbad⟩
  · by_cases hq : (∀ op ∈ queryOps lon lat ++ [getMapOp], ee.throws op = none) ∧
        ee.getInfo ≠ none
    · rw [(hok hq).1]
      decide
    · rw [hbad hq]
      decide
  · refine ⟨parseFloat lon, parseFloat lat,
      GET_made_head numToStr req ee qs lat lon hu hlat hlon h1 h2, rfl, rfl, ?_⟩
    rcases hnan with h | h
    · exact Or.inr h
    · exact Or.inl h

theorem non_numeric_coordinate_goes_to_the_client_witness :
    (GET (fun _ => "0") Awaited.resolved ⟨some [("lat", "abc"), ("lon", "77.6")]⟩
      ⟨fun op => if op = RemoteOp.getInfo then some "Invalid GeoJSON geometry" else none,
        some [("NDVI", JSValue.null)], none⟩).1
        = ⟨"\x7b\"error\":\"Failed to fetch NDVI\"\x7d", 500⟩ :=
  (non_numeric_coordinate_goes_to_the_client (fun _ => "0")
    ⟨some [("lat", "abc"), ("lon", "77.6")]⟩
    ⟨fun op => if op = RemoteOp.getInfo then some "Invalid GeoJSON geometry" else none,
      some [("NDVI", JSValue.null)], none⟩ [("lat", "abc"), ("lon", "77.6")]
    "abc" "77.6" rfl (by decide) (by decide) (by decide) (by decide)
    (Or.inl (by decide))).2.2.2 (by decide)

end Agrimitra
